import Mathlib

set_option maxRecDepth 100000

/-!
Verification of the spec of a small SQLAlchemy demo repository
(src/sqlalchemy/relatioship.py and src/sqlalchemy/oop_approach.py).

The password-hashing layer (hashlib.sha256(...).hexdigest() over the UTF-8
encoding of the password) is embedded as an executable SHA-256 (FIPS 180-4)
over byte lists.  The entity classes User / UserAuth / UserPost become Lean
structures; the Python methods become pure functions on them.
-/

/-! ## SHA-256 core (FIPS 180-4), bytes are Nat values below 256 -/

def w32 : Nat := 4294967296

def rotr32 (x n : Nat) : Nat := ((x >>> n) ||| (x <<< (32 - n))) % w32

def ch32 (x y z : Nat) : Nat := (x &&& y) ^^^ ((x ^^^ 4294967295) &&& z)

def maj32 (x y z : Nat) : Nat := (x &&& y) ^^^ (x &&& z) ^^^ (y &&& z)

def bsig0 (x : Nat) : Nat := rotr32 x 2 ^^^ rotr32 x 13 ^^^ rotr32 x 22

def bsig1 (x : Nat) : Nat := rotr32 x 6 ^^^ rotr32 x 11 ^^^ rotr32 x 25

def ssig0 (x : Nat) : Nat := rotr32 x 7 ^^^ rotr32 x 18 ^^^ (x >>> 3)

def ssig1 (x : Nat) : Nat := rotr32 x 17 ^^^ rotr32 x 19 ^^^ (x >>> 10)

/-- The 64 SHA-256 round constants, in decimal. -/
def K256 : List Nat :=
  [1116352408, 1899447441, 3049323471, 3921009573,
   961987163, 1508970993, 2453635748, 2870763221,
   3624381080, 310598401, 607225278, 1426881987,
   1925078388, 2162078206, 2614888103, 3248222580,
   3835390401, 4022224774, 264347078, 604807628,
   770255983, 1249150122, 1555081692, 1996064986,
   2554220882, 2821834349, 2952996808, 3210313671,
   3336571891, 3584528711, 113926993, 338241895,
   666307205, 773529912, 1294757372, 1396182291,
   1695183700, 1986661051, 2177026350, 2456956037,
   2730485921, 2820302411, 3259730800, 3345764771,
   3516065817, 3600352804, 4094571909, 275423344,
   430227734, 506948616, 659060556, 883997877,
   958139571, 1322822218, 1537002063, 1747873779,
   1955562222, 2024104815, 2227730452, 2361852424,
   2428436474, 2756734187, 3204031479, 3329325298]

/-- Working state of SHA-256: eight 32-bit words. -/
@[ext] structure Hash8 where
  a : Nat
  b : Nat
  c : Nat
  d : Nat
  e : Nat
  f : Nat
  g : Nat
  h : Nat
  deriving DecidableEq

/-- The eight SHA-256 initial hash values, in decimal. -/
def initHash : Hash8 :=
  { a := 1779033703, b := 3144134277, c := 1013904242, d := 2773480762,
    e := 1359893119, f := 2600822924, g := 528734635, h := 1541459225 }

/-- Big-endian bytes of the 64-bit message bit length. -/
def lenBytesBE (n : Nat) : List Nat :=
  [(n >>> 56) % 256, (n >>> 48) % 256, (n >>> 40) % 256, (n >>> 32) % 256,
   (n >>> 24) % 256, (n >>> 16) % 256, (n >>> 8) % 256, n % 256]

/-- SHA-256 padding: a 0x80 byte, zeros up to 56 mod 64, then the bit length. -/
def padMessage (msg : List Nat) : List Nat :=
  msg ++ [128] ++ List.replicate ((120 - ((msg.length + 1) % 64)) % 64) 0
      ++ lenBytesBE (8 * msg.length)

/-- Split a byte list into successive 64-byte blocks (fuel bounds the recursion
so that the definition is structural and reduces in the kernel). -/
def chunks64Aux : Nat → List Nat → List (List Nat)
  | 0, _ => []
  | _ + 1, [] => []
  | fuel + 1, x :: xs => ((x :: xs).take 64) :: chunks64Aux fuel ((x :: xs).drop 64)

/-- Split a byte list into successive 64-byte blocks. -/
def chunks64 (l : List Nat) : List (List Nat) :=
  chunks64Aux l.length l

/-- Combine successive groups of four bytes into big-endian 32-bit words. -/
def bytesToWords : List Nat → List Nat
  | a :: b :: c :: d :: rest =>
      ((a <<< 24) ||| (b <<< 16) ||| (c <<< 8) ||| d) :: bytesToWords rest
  | _ => []

/-- Extend the 16 block words to the 64-entry message schedule. -/
def extendSchedule (ws : List Nat) : List Nat :=
  (List.range 48).foldl
    (fun w _ =>
      let n := w.length
      w ++ [(ssig1 (w.getD (n - 2) 0) + w.getD (n - 7) 0
             + ssig0 (w.getD (n - 15) 0) + w.getD (n - 16) 0) % w32])
    ws

/-- One round of the SHA-256 compression loop. -/
def compressRound (s : Hash8) (kw : Nat × Nat) : Hash8 :=
  let t1 := (s.h + bsig1 s.e + ch32 s.e s.f s.g + kw.1 + kw.2) % w32
  let t2 := (bsig0 s.a + maj32 s.a s.b s.c) % w32
  { a := (t1 + t2) % w32, b := s.a, c := s.b, d := s.c,
    e := (s.d + t1) % w32, f := s.e, g := s.f, h := s.g }

/-- Process one 64-byte block. -/
def compress (s : Hash8) (block : List Nat) : Hash8 :=
  let ws := extendSchedule (bytesToWords block)
  let t := (K256.zip ws).foldl compressRound s
  { a := (s.a + t.a) % w32, b := (s.b + t.b) % w32, c := (s.c + t.c) % w32,
    d := (s.d + t.d) % w32, e := (s.e + t.e) % w32, f := (s.f + t.f) % w32,
    g := (s.g + t.g) % w32, h := (s.h + t.h) % w32 }

/-- The eight-word SHA-256 digest of a byte list. -/
def sha256words (msg : List Nat) : Hash8 :=
  (chunks64 (padMessage msg)).foldl compress initHash

/-- The sixteen lowercase hex digit characters, in value order. -/
def hexChars : List Char :=
  "0123456789abcdef".data

def byteHex (b : Nat) : List Char :=
  [hexChars.getD (b / 16 % 16) '0', hexChars.getD (b % 16) '0']

def wordBytesBE (x : Nat) : List Nat :=
  [(x >>> 24) % 256, (x >>> 16) % 256, (x >>> 8) % 256, x % 256]

def digestBytes (s : Hash8) : List Nat :=
  ([s.a, s.b, s.c, s.d, s.e, s.f, s.g, s.h].map wordBytesBE).flatten

/-- Lowercase hex rendering of a digest state. -/
def stateHex (s : Hash8) : String :=
  String.mk ((digestBytes s).map byteHex).flatten

/-- hashlib.sha256(msg).hexdigest() for a byte list msg. -/
def hexdigest (msg : List Nat) : String :=
  stateHex (sha256words msg)

/-! ## UTF-8 encoding: Python str.encode() -/

/-- UTF-8 bytes of a single code point. -/
def utf8Bytes (ch : Char) : List Nat :=
  let n := ch.toNat
  if n < 0x80 then [n]
  else if n < 0x800 then [0xc0 ||| (n >>> 6), 0x80 ||| (n &&& 0x3f)]
  else if n < 0x10000 then
    [0xe0 ||| (n >>> 12), 0x80 ||| ((n >>> 6) &&& 0x3f), 0x80 ||| (n &&& 0x3f)]
  else
    [0xf0 ||| (n >>> 18), 0x80 ||| ((n >>> 12) &&& 0x3f),
     0x80 ||| ((n >>> 6) &&& 0x3f), 0x80 ||| (n &&& 0x3f)]

/-- Python s.encode(): UTF-8 bytes of a string. -/
def strEncode (s : String) : List Nat :=
  (s.data.map utf8Bytes).flatten

/-! ## Entities of src/sqlalchemy/relatioship.py -/

/-- The user_auth table row / UserAuth instance: username, email, and the
password hash column.  password_hash is Option String because the column is
unset (Python None) until set_password runs. -/
structure UserAuth where
  username : String
  email : String
  password_hash : Option String
  deriving DecidableEq

/-- UserAuth.__init__(self, username, email): sets username and email and
leaves password_hash unset (the mapped column reads as None). -/
def UserAuth.init (username email : String) : UserAuth :=
  { username := username, email := email, password_hash := none }

/-- UserAuth.set_password: stores hashlib.sha256(password.encode()).hexdigest(). -/
def UserAuth.set_password (auth : UserAuth) (password : String) : UserAuth :=
  { auth with password_hash := some (hexdigest (strEncode password)) }

/-- UserAuth.check_password: compares the stored column with the digest of the
candidate (Python None == str is False, hence the Option comparison). -/
def UserAuth.check_password (auth : UserAuth) (password : String) : Bool :=
  auth.password_hash == some (hexdigest (strEncode password))

/-- Iterate set_password over a list of passwords (for the last-write-wins
property of the setter). -/
def UserAuth.applyPasswords (auth : UserAuth) (ps : List String) : UserAuth :=
  ps.foldl UserAuth.set_password auth

/-- The User class of relatioship.py: its own columns are just the id; the
data lives in the owned one-to-one UserAuth. -/
structure User where
  auth : UserAuth
  deriving DecidableEq

/-- User.__init__(self, username, email, password): builds the UserAuth and
immediately calls set_password on it. -/
def User.init (username email password : String) : User :=
  { auth := (UserAuth.init username email).set_password password }

/-- The user_posts table row: id, required foreign key to users.id, content. -/
structure UserPost where
  id : Nat
  user_id : Nat
  content : String
  deriving DecidableEq

/-- The user_posts table as committed by main(): one user (id 1) owning the
two posts created there, in insertion order. -/
def mainPostsTable : List UserPost :=
  [{ id := 1, user_id := 1, content := "Hello World!1" },
   { id := 2, user_id := 1, content := "Hello World!2" }]

/-- Modelled from the spec: the query engine behind
session.query(UserPost).filter(UserPost.content == s).all() is external
library code absent from src; per the spec it returns the rows whose column
equals the literal, in storage order (no ordering clause). -/
def queryPostsByContent (db : List UserPost) (s : String) : List UserPost :=
  db.filter (fun p => p.content == s)

/-! ## Entities of src/sqlalchemy/oop_approach.py -/

namespace Oop

/-- The users table row of oop_approach.py: username, email, is_admin
(default False). -/
structure User where
  username : String
  email : String
  is_admin : Bool
  deriving DecidableEq

/-- Modelled from the spec: the Session is external library code absent from
src; per the spec it batches pending entities and appends them to the store
in insertion order on commit. -/
structure SessionState where
  db : List User
  pending : List User
  deriving DecidableEq

/-- session.add(u): record u as pending, after earlier adds. -/
def SessionState.add (s : SessionState) (u : User) : SessionState :=
  { s with pending := s.pending ++ [u] }

/-- session.commit(): flush all pending entities to the store in order. -/
def SessionState.commit (s : SessionState) : SessionState :=
  { db := s.db ++ s.pending, pending := [] }

/-- session.query(User).all(): every stored row, in storage order. -/
def queryAllUsers (s : SessionState) : List User :=
  s.db

/-- The main() routine of oop_approach.py, generalized over the two
username/email pairs: create two users, add both, commit, query all. -/
def mainOop (u1 e1 u2 e2 : String) : List User :=
  queryAllUsers
    ((((SessionState.mk [] []).add (User.mk u1 e1 false)).add
        (User.mk u2 e2 false)).commit)

end Oop

/-! ## The unique-email constraint and the transaction scope (modelled) -/

/-- A stored user_auth row (id column included). -/
structure AuthRow where
  id : Nat
  username : String
  email : String
  password_hash : Option String
  deriving DecidableEq

/-- Modelled from the spec: the storage layer enforcing the unique constraint
on user_auth.email is external library code absent from src; per the spec a
conflicting insert fails with an error and writes nothing. -/
def insertAuth (db : List AuthRow) (r : AuthRow) : Except String (List AuthRow) :=
  if db.any (fun x => x.email == r.email) then
    Except.error "UNIQUE constraint failed: user_auth.email"
  else
    Except.ok (db ++ [r])

/-- The table contents after an insert attempt: the new state on success, the
old state on failure (a failed statement leaves no partial row). -/
def committedState (res : Except String (List AuthRow)) (db : List AuthRow) : List AuthRow :=
  match res with
  | Except.ok db2 => db2
  | Except.error _ => db

/-- Commit a batch of pending rows one by one, stopping at the first error. -/
def commitAll (db : List AuthRow) : List AuthRow → Except String (List AuthRow)
  | [] => Except.ok db
  | r :: rs =>
    match insertAuth db r with
    | Except.ok db2 => commitAll db2 rs
    | Except.error msg => Except.error msg

/-- Modelled from the spec: the Session.begin() scope is external library
code absent from src; per the spec it commits every pending write as one
transaction on clean exit and discards all of them on error. -/
def sessionScope (db : List AuthRow) (pending : List AuthRow) : List AuthRow :=
  committedState (commitAll db pending) db

/-! ## Bounds on the digest words (for the collision argument) -/

/-- All eight words of a state are reduced below 2^32. -/
def Hash8.Bounded (s : Hash8) : Prop :=
  s.a < w32 ∧ s.b < w32 ∧ s.c < w32 ∧ s.d < w32 ∧
  s.e < w32 ∧ s.f < w32 ∧ s.g < w32 ∧ s.h < w32

theorem compress_bounded (s : Hash8) (block : List Nat) : (compress s block).Bounded := by
  have hpos : 0 < w32 := by decide
  unfold compress
  refine ⟨?_, ?_, ?_, ?_, ?_, ?_, ?_, ?_⟩ <;> exact Nat.mod_lt _ hpos

theorem foldl_compress_bounded (l : List (List Nat)) (s : Hash8) (hs : s.Bounded) :
    (l.foldl compress s).Bounded := by
  induction l generalizing s with
  | nil => exact hs
  | cons b bs ih =>
    rw [List.foldl_cons]
    exact ih (compress s b) (compress_bounded s b)

theorem initHash_bounded : initHash.Bounded := by
  refine ⟨?_, ?_, ?_, ?_, ?_, ?_, ?_, ?_⟩ <;> decide

theorem sha256words_bounded (msg : List Nat) : (sha256words msg).Bounded :=
  foldl_compress_bounded _ _ initHash_bounded

/-- The digest packaged as a tuple in a finite type. -/
def digestFin (msg : List Nat) :
    Fin w32 × Fin w32 × Fin w32 × Fin w32 × Fin w32 × Fin w32 × Fin w32 × Fin w32 :=
  (⟨(sha256words msg).a, (sha256words_bounded msg).1⟩,
   ⟨(sha256words msg).b, (sha256words_bounded msg).2.1⟩,
   ⟨(sha256words msg).c, (sha256words_bounded msg).2.2.1⟩,
   ⟨(sha256words msg).d, (sha256words_bounded msg).2.2.2.1⟩,
   ⟨(sha256words msg).e, (sha256words_bounded msg).2.2.2.2.1⟩,
   ⟨(sha256words msg).f, (sha256words_bounded msg).2.2.2.2.2.1⟩,
   ⟨(sha256words msg).g, (sha256words_bounded msg).2.2.2.2.2.2.1⟩,
   ⟨(sha256words msg).h, (sha256words_bounded msg).2.2.2.2.2.2.2⟩)

/-- The string of n letters a (distinct for distinct n). -/
def aString (n : Nat) : String :=
  String.mk (List.replicate n 'a')

theorem aString_ne {m n : Nat} (h : m ≠ n) : aString m ≠ aString n := by
  intro he
  apply h
  have hd : (aString m).data = (aString n).data := by rw [he]
  simpa [aString] using congrArg List.length hd

theorem hexdigest_eq_of_digestFin_eq {m₁ m₂ : List Nat}
    (h : digestFin m₁ = digestFin m₂) : hexdigest m₁ = hexdigest m₂ := by
  have hw : sha256words m₁ = sha256words m₂ := by
    simp only [digestFin, Prod.mk.injEq, Fin.mk.injEq] at h
    ext <;> tauto
  simp [hexdigest, hw]

/-- SHA-256 maps infinitely many strings into finitely many digests, so two
distinct passwords share a hex digest. -/
theorem sha256_collision :
    ∃ p₁ p₂ : String, p₁ ≠ p₂ ∧ hexdigest (strEncode p₁) = hexdigest (strEncode p₂) := by
  obtain ⟨n₁, n₂, hne, heq⟩ :=
    Finite.exists_ne_map_eq_of_infinite (fun n : ℕ => digestFin (strEncode (aString n)))
  exact ⟨aString n₁, aString n₂, aString_ne hne, hexdigest_eq_of_digestFin_eq heq⟩

/-! ## Shape of the hex digest -/

theorem byteHex_subset (b : Nat) : ∀ ch ∈ byteHex b, ch ∈ hexChars := by
  intro ch hch
  have h16 : ∀ i < 16, hexChars.getD i '0' ∈ hexChars := by decide
  simp only [byteHex, List.mem_cons, List.mem_singleton, List.not_mem_nil, or_false] at hch
  rcases hch with h | h <;> subst h
  · exact h16 _ (Nat.mod_lt _ (by decide))
  · exact h16 _ (Nat.mod_lt _ (by decide))

theorem flatten_map_byteHex_length (l : List Nat) :
    ((l.map byteHex).flatten).length = 2 * l.length := by
  induction l with
  | nil => rfl
  | cons b bs ih =>
    have hb : (byteHex b).length = 2 := rfl
    simp only [List.map_cons, List.flatten_cons, List.length_append, hb, ih, List.length_cons]
    omega

theorem digestBytes_length (s : Hash8) : (digestBytes s).length = 32 := rfl

theorem stateHex_length (s : Hash8) : (stateHex s).length = 64 := by
  show ((digestBytes s).map byteHex).flatten.length = 64
  rw [flatten_map_byteHex_length, digestBytes_length]

theorem stateHex_mem (s : Hash8) : ∀ ch ∈ (stateHex s).data, ch ∈ hexChars := by
  intro ch hch
  have hm : ch ∈ ((digestBytes s).map byteHex).flatten := hch
  rw [List.mem_flatten] at hm
  obtain ⟨l, hl, hcl⟩ := hm
  rw [List.mem_map] at hl
  obtain ⟨b, _, rfl⟩ := hl
  exact byteHex_subset b ch hcl

/-! ## Inversion lemmas for the modelled storage layer -/

theorem insertAuth_ok_eq {db : List AuthRow} {r : AuthRow} {dbx : List AuthRow}
    (h : insertAuth db r = Except.ok dbx) : dbx = db ++ [r] := by
  by_cases hc : db.any (fun x => x.email == r.email) = true
  · simp [insertAuth, hc] at h
  · simp [insertAuth, hc] at h
    exact h.symm

theorem commitAll_ok_eq (pending : List AuthRow) (db db2 : List AuthRow)
    (h : commitAll db pending = Except.ok db2) : db2 = db ++ pending := by
  induction pending generalizing db with
  | nil =>
    simp [commitAll] at h
    simp [h]
  | cons r rs ih =>
    cases hins : insertAuth db r with
    | error msg =>
      rw [commitAll, hins] at h
      exact absurd h (by simp)
    | ok dbx =>
      rw [commitAll, hins] at h
      have h3 := ih dbx h
      rw [insertAuth_ok_eq hins] at h3
      simpa using h3

/-! ## Claim theorems -/

/-- Claim C1 (counterexample to the claim as stated): it is false that
check_password returns false for every candidate different from the original
password.  SHA-256 has only finitely many digests while there are infinitely
many passwords, so two distinct passwords share a digest and check_password
accepts the wrong one. -/
theorem c1_counterexample :
    ¬ ∀ (u e p c : String), c ≠ p →
      (User.init u e p).auth.check_password c = false := by
  intro hall
  obtain ⟨p₁, p₂, hne, heq⟩ := sha256_collision
  have hfalse := hall "u" "e@f" p₁ p₂ (Ne.symm hne)
  have htrue : (User.init "u" "e@f" p₁).auth.check_password p₂ = true := by
    simp [User.init, UserAuth.init, UserAuth.set_password, UserAuth.check_password, heq]
  rw [hfalse] at htrue
  exact Bool.false_ne_true htrue

/-- Claim C1 (amended): constructing a User and calling check_password with the
original password returns true; calling it with any candidate whose SHA-256 hex
digest differs from the digest of the original returns false.  (The amendment
replaces the candidate being a different string by its digest being different,
which the collision counterexample forces.) -/
theorem c1_check_password (u e p c : String) :
    (User.init u e p).auth.check_password p = true ∧
    (hexdigest (strEncode c) ≠ hexdigest (strEncode p) →
      (User.init u e p).auth.check_password c = false) := by
  constructor
  · simp [User.init, UserAuth.init, UserAuth.set_password, UserAuth.check_password]
  · intro hne
    simp only [User.init, UserAuth.init, UserAuth.set_password, UserAuth.check_password]
    simp only [beq_eq_false_iff_ne, ne_eq, Option.some.injEq]
    exact fun h => hne h.symm

/-- Claim C1 (witness): the main() scenario of relatioship.py, with the
digest hypothesis discharged by computation. -/
theorem c1_check_password_witness :
    hexdigest (strEncode "wrongpassword") ≠ hexdigest (strEncode "password") ∧
    (User.init "Arjan" "Arjan@arjancodes.com" "password").auth.check_password "password" = true ∧
    (User.init "Arjan" "Arjan@arjancodes.com" "password").auth.check_password "wrongpassword" = false := by
  have hne : hexdigest (strEncode "wrongpassword") ≠ hexdigest (strEncode "password") := by decide
  exact ⟨hne,
    (c1_check_password "Arjan" "Arjan@arjancodes.com" "password" "wrongpassword").1,
    (c1_check_password "Arjan" "Arjan@arjancodes.com" "password" "wrongpassword").2 hne⟩

/-- Claim C2 (counterexample to the claim as stated): if the caller passes the
password also as the username, a field of the constructed UserAuth does hold
the raw password string. -/
theorem c2_counterexample :
    (User.init "password" "a@b.com" "password").auth.username = "password" := rfl

/-- Claim C2 (amended): construction writes the caller-supplied username and
email unchanged and derives only the SHA-256 hex digest from the password;
password_hash never holds the raw password (whenever the digest differs from
it), and set_password afterwards again stores only a digest.  A field can
coincide with the password only when the caller passes an equal string as
username or email. -/
theorem c2_no_raw_password (u e p : String) :
    (User.init u e p).auth.username = u ∧
    (User.init u e p).auth.email = e ∧
    (User.init u e p).auth.password_hash = some (hexdigest (strEncode p)) ∧
    (hexdigest (strEncode p) ≠ p → (User.init u e p).auth.password_hash ≠ some p) ∧
    (∀ q, ((User.init u e p).auth.set_password q).password_hash
        = some (hexdigest (strEncode q))) := by
  refine ⟨rfl, rfl, rfl, ?_, fun q => rfl⟩
  intro hne hcontra
  apply hne
  simpa [User.init, UserAuth.init, UserAuth.set_password] using hcontra

/-- Claim C2 (witness): on the main() scenario the stored column is the digest
and not the raw password, the digest inequality discharged by computation. -/
theorem c2_no_raw_password_witness :
    hexdigest (strEncode "password") ≠ "password" ∧
    (User.init "Arjan" "Arjan@arjancodes.com" "password").auth.password_hash ≠ some "password" := by
  have hne : hexdigest (strEncode "password") ≠ "password" := by decide
  exact ⟨hne, (c2_no_raw_password "Arjan" "Arjan@arjancodes.com" "password").2.2.2.1 hne⟩

/-- Claim C3: hashing is deterministic: set_password stores a digest that
depends only on the password value (two arbitrary UserAuth states receive the
same hash for the same password), and check_password, which recomputes the
digest, therefore accepts the password just set. -/
theorem c3_hash_deterministic (a₁ a₂ : UserAuth) (p : String) :
    (a₁.set_password p).password_hash = (a₂.set_password p).password_hash ∧
    (a₁.set_password p).check_password p = true := by
  constructor
  · rfl
  · simp [UserAuth.set_password, UserAuth.check_password]

/-- Claim C8: a UserAuth built by UserAuth.__init__ alone has password_hash
unset (None), and check_password returns false for every candidate, since
None never equals a digest string. -/
theorem c8_unset_password_check_false (u e c : String) :
    (UserAuth.init u e).password_hash = none ∧
    (UserAuth.init u e).check_password c = false := by
  exact ⟨rfl, rfl⟩

/-- Claim C9: set_password is last-write-wins: after any sequence of calls the
stored column is the digest of the last password set, and check_password
accepts that last password. -/
theorem c9_last_write_wins (auth : UserAuth) (ps : List String) (p : String) :
    (auth.applyPasswords (ps ++ [p])).password_hash = some (hexdigest (strEncode p)) ∧
    (auth.applyPasswords (ps ++ [p])).check_password p = true := by
  have hsplit : auth.applyPasswords (ps ++ [p]) = (auth.applyPasswords ps).set_password p := by
    simp [UserAuth.applyPasswords, List.foldl_append]
  rw [hsplit]
  exact ⟨rfl, by simp [UserAuth.set_password, UserAuth.check_password]⟩

/-- Claim C10: after any set_password call the stored column is a 64-character
string over the lowercase hex alphabet (hexChars lists exactly the sixteen
lowercase hex digits); set_password is the only writer of the column, and every
later set_password produces the same shape. -/
theorem c10_hash_is_hex64 (auth : UserAuth) (p : String) :
    ∃ hx, (auth.set_password p).password_hash = some hx ∧
      hx.length = 64 ∧ ∀ ch ∈ hx.data, ch ∈ hexChars :=
  ⟨hexdigest (strEncode p), rfl, stateHex_length _, stateHex_mem _⟩

/-- Claim C10 (witness): the shape at a concrete input. -/
theorem c10_hash_is_hex64_witness :
    ∃ hx, ((UserAuth.init "Arjan" "Arjan@arjancodes.com").set_password "password").password_hash
        = some hx ∧ hx.length = 64 ∧ ∀ ch ∈ hx.data, ch ∈ hexChars :=
  c10_hash_is_hex64 (UserAuth.init "Arjan" "Arjan@arjancodes.com") "password"

/-- Claim C4: the equality filter on the content column returns exactly the
stored posts whose content equals the literal, keeping storage order, and on
the committed main() table the filter on the second content string returns
exactly the one matching post. -/
theorem c4_filter_posts_by_content :
    (∀ (db : List UserPost) (s : String) (p : UserPost),
        p ∈ queryPostsByContent db s ↔ p ∈ db ∧ p.content = s) ∧
    (∀ (db : List UserPost) (s : String), (queryPostsByContent db s).Sublist db) ∧
    queryPostsByContent mainPostsTable "Hello World!2" =
      [{ id := 2, user_id := 1, content := "Hello World!2" }] := by
  refine ⟨?_, ?_, ?_⟩
  · intro db s p
    simp [queryPostsByContent, List.mem_filter]
  · intro db s
    exact List.filter_sublist _
  · rfl

/-- Claim C5: the main() routine of oop_approach.py, generalized over the two
constructed username/email pairs, returns exactly two entities carrying the
originally assigned usernames and emails, in insertion order. -/
theorem c5_query_all_users (u1 e1 u2 e2 : String) :
    (Oop.mainOop u1 e1 u2 e2).length = 2 ∧
    Oop.mainOop u1 e1 u2 e2 =
      [{ username := u1, email := e1, is_admin := false },
       { username := u2, email := e2, is_admin := false }] :=
  ⟨rfl, rfl⟩

/-- Claim C6: inserting a UserAuth row whose email duplicates a committed one
fails with the unique-constraint error, and the committed state after the
failed attempt is exactly the old table: no row or partial row of the
conflicting insert persists. -/
theorem c6_duplicate_email_rejected (db : List AuthRow) (r : AuthRow)
    (hdup : ∃ x ∈ db, x.email = r.email) :
    insertAuth db r = Except.error "UNIQUE constraint failed: user_auth.email" ∧
    committedState (insertAuth db r) db = db := by
  have hany : db.any (fun x => x.email == r.email) = true := by
    obtain ⟨x, hx, he⟩ := hdup
    exact List.any_eq_true.mpr ⟨x, hx, by simp [he]⟩
  refine ⟨?_, ?_⟩
  · simp [insertAuth, hany]
  · simp [insertAuth, hany, committedState]

/-- Claim C6 (witness): a concrete duplicate-email insert attempt. -/
theorem c6_duplicate_email_rejected_witness :
    insertAuth [AuthRow.mk 1 "Arjan" "Arjan@arjancodes.com" none]
        (AuthRow.mk 2 "Other" "Arjan@arjancodes.com" none) =
      Except.error "UNIQUE constraint failed: user_auth.email" ∧
    committedState
        (insertAuth [AuthRow.mk 1 "Arjan" "Arjan@arjancodes.com" none]
          (AuthRow.mk 2 "Other" "Arjan@arjancodes.com" none))
        [AuthRow.mk 1 "Arjan" "Arjan@arjancodes.com" none] =
      [AuthRow.mk 1 "Arjan" "Arjan@arjancodes.com" none] :=
  c6_duplicate_email_rejected _ _
    ⟨AuthRow.mk 1 "Arjan" "Arjan@arjancodes.com" none, by simp, rfl⟩

/-- Claim C7: a session scope is all-or-nothing: either the batch commits
cleanly and the resulting state is the old table followed by every pending
write in order, or the commit errors and the resulting state is exactly the
old table, with no pending write persisted. -/
theorem c7_all_or_nothing (db pending : List AuthRow) :
    (sessionScope db pending = db ++ pending ∧
      ∃ db2, commitAll db pending = Except.ok db2) ∨
    (sessionScope db pending = db ∧
      ∃ msg, commitAll db pending = Except.error msg) := by
  cases hc : commitAll db pending with
  | ok db2 =>
    left
    refine ⟨?_, db2, rfl⟩
    have he := commitAll_ok_eq pending db db2 hc
    simp [sessionScope, committedState, hc, he]
  | error msg =>
    right
    exact ⟨by simp [sessionScope, committedState, hc], msg, rfl⟩
